import Mathlib

/-!
Shallow embedding of the usage-aggregation and accounting engine of the
`st-tokenusage` extension (`src/index.js`), together with theorems checking the
specification's claims about it.

Conventions of the embedding:
* JS objects used as string-keyed maps become association lists
  (`List (String × β)`) with `alookup` / `upsert` mirroring property access and
  the `if (!obj[k]) obj[k] = d; mutate(obj[k])` idiom.
* Token counts are `Nat`; JS number arithmetic on prices/ratios is modelled
  over `ℚ`.
* The wall clock is external: the day/hour/week/month keys produced by
  `getDayKey` .. `getMonthKey` at the moment of a recording are passed in as an
  explicit `TimeKeys` value.
* The external tokenizer pipeline (the body of the `try` block of
  `countTokens`) is a parameter `tok : String → Except Unit Nat`; `.error`
  models a thrown error.
* Promises are modelled by their resolved values: `pendingInputTokensPromise`
  becomes `Option Nat` holding the value the stored future resolves to.
-/

namespace TokenUsage

/-- Aggregate counter record for one time window or dimension, as initialised by
`defaultSettings.usage.allTime` in `src/index.js`. -/
structure UsageBucket where
  input : Nat
  output : Nat
  total : Nat
  messageCount : Nat
  deriving Repr, DecidableEq

/-- Zero bucket, `{ input: 0, output: 0, total: 0, messageCount: 0 }`. -/
def UsageBucket.zero : UsageBucket := ⟨0, 0, 0, 0⟩

/-- Per-model entry inside a day bucket, `{ input, output, total }` (no
`messageCount`). -/
structure ModelBucket where
  input : Nat
  output : Nat
  total : Nat
  deriving Repr, DecidableEq

/-- Zero per-model entry, `{ input: 0, output: 0, total: 0 }`. -/
def ModelBucket.zero : ModelBucket := ⟨0, 0, 0⟩

/-- Day bucket: a usage bucket plus the per-model breakdown `models`. -/
structure DayBucket where
  input : Nat
  output : Nat
  total : Nat
  messageCount : Nat
  models : List (String × ModelBucket)
  deriving Repr, DecidableEq

/-- Zero day bucket, `{ input: 0, output: 0, total: 0, messageCount: 0, models: {} }`. -/
def DayBucket.zero : DayBucket := ⟨0, 0, 0, 0, []⟩

/-- The persisted `settings.usage` structure. -/
structure UsageStore where
  allTime : UsageBucket
  byDay : List (String × DayBucket)
  byHour : List (String × UsageBucket)
  byWeek : List (String × UsageBucket)
  byMonth : List (String × UsageBucket)
  byChat : List (String × UsageBucket)
  byModel : List (String × UsageBucket)
  deriving Repr, DecidableEq

/-- The zero store, `defaultSettings.usage`. -/
def UsageStore.zero : UsageStore := ⟨.zero, [], [], [], [], [], []⟩

/-- Key lookup in an association list, modelling JS object property access. -/
def alookup {β : Type} (k : String) : List (String × β) → Option β
  | [] => none
  | (k', v) :: rest => if k' = k then some v else alookup k rest

/-- Update the entry at key `k` with `f`, inserting the default `d` first when
the key is absent — modelling the JS idiom
`if (!obj[k]) obj[k] = d; mutate(obj[k])` (new keys are appended). -/
def upsert {β : Type} (k : String) (d : β) (f : β → β) : List (String × β) → List (String × β)
  | [] => [(k, f d)]
  | (k', v) :: rest => if k' = k then (k', f v) :: rest else (k', v) :: upsert k d f rest

/-- Wall-clock-derived bucket keys for one recording instant: the results of
`getDayKey` / `getHourKey` / `getWeekKey` / `getMonthKey` applied to `now`. -/
structure TimeKeys where
  day : String
  hour : String
  week : String
  month : String
  deriving Repr, DecidableEq

/-- The `addTokens` closure inside `recordUsage`: add the input/output/total
deltas and bump `messageCount` by one. -/
def addTokens (inputTokens outputTokens : Nat) (b : UsageBucket) : UsageBucket :=
  { input := b.input + inputTokens
    output := b.output + outputTokens
    total := b.total + (inputTokens + outputTokens)
    messageCount := b.messageCount + 1 }

/-- The same `addTokens` delta applied to a day bucket (its `models` map is
untouched by `addTokens`). -/
def addTokensDay (inputTokens outputTokens : Nat) (b : DayBucket) : DayBucket :=
  { b with
    input := b.input + inputTokens
    output := b.output + outputTokens
    total := b.total + (inputTokens + outputTokens)
    messageCount := b.messageCount + 1 }

/-- Per-model delta inside the day bucket:
`modelData.input += inputTokens; modelData.output += outputTokens; modelData.total += totalTokens`. -/
def addModelTokens (inputTokens outputTokens : Nat) (m : ModelBucket) : ModelBucket :=
  { input := m.input + inputTokens
    output := m.output + outputTokens
    total := m.total + (inputTokens + outputTokens) }

/-- Embedding of `recordUsage(inputTokens, outputTokens, chatId, modelId)`:
apply the same delta to `allTime`, the current day/hour/week/month buckets
(creating them on first touch), the per-model entry of the day bucket and the
`byChat` / `byModel` buckets when the respective id is given. The wall-clock
keys of `now` are passed explicitly. -/
def recordUsage (inputTokens outputTokens : Nat) (chatId modelId : Option String)
    (now : TimeKeys) (usage : UsageStore) : UsageStore :=
  let usage := { usage with allTime := addTokens inputTokens outputTokens usage.allTime }
  let usage := { usage with
    byDay := upsert now.day .zero (addTokensDay inputTokens outputTokens) usage.byDay }
  let usage :=
    match modelId with
    | some m => { usage with
        byDay := upsert now.day .zero
          (fun d => { d with
            models := upsert m .zero (addModelTokens inputTokens outputTokens) d.models })
          usage.byDay }
    | none => usage
  let usage := { usage with
    byHour := upsert now.hour .zero (addTokens inputTokens outputTokens) usage.byHour }
  let usage := { usage with
    byWeek := upsert now.week .zero (addTokens inputTokens outputTokens) usage.byWeek }
  let usage := { usage with
    byMonth := upsert now.month .zero (addTokens inputTokens outputTokens) usage.byMonth }
  let usage :=
    match chatId with
    | some c => { usage with
        byChat := upsert c .zero (addTokens inputTokens outputTokens) usage.byChat }
    | none => usage
  match modelId with
  | some m => { usage with
      byModel := upsert m .zero (addTokens inputTokens outputTokens) usage.byModel }
  | none => usage

/-- One `recordUsage` invocation: its arguments together with the wall-clock
keys in effect at the moment of the call. -/
structure Call where
  inputTokens : Nat
  outputTokens : Nat
  chatId : Option String
  modelId : Option String
  now : TimeKeys
  deriving Repr, DecidableEq

/-- Apply a sequence of `recordUsage` calls in order. -/
def applyCalls (calls : List Call) (usage : UsageStore) : UsageStore :=
  calls.foldl
    (fun u c => recordUsage c.inputTokens c.outputTokens c.chatId c.modelId c.now u) usage

/-- Embedding of `getUsageForRange(startDate, endDate)`: fold over the `byDay`
entries, accumulating those whose key lies in the inclusive range under string
comparison (`day >= startDate && day <= endDate`). -/
def getUsageForRange (startDate endDate : String) (usage : UsageStore) : UsageBucket :=
  usage.byDay.foldl
    (fun result p =>
      if startDate ≤ p.1 ∧ p.1 ≤ endDate then
        { input := result.input + p.2.input
          output := result.output + p.2.output
          total := result.total + p.2.total
          messageCount := result.messageCount + p.2.messageCount }
      else result)
    ⟨0, 0, 0, 0⟩

/-- Specification-side description of the range query, following the spec's
words: the field-wise sum of exactly those `byDay` entries whose key lies in
the inclusive `[startDate, endDate]` range. Compared with `getUsageForRange`
by the refinement theorem for the corresponding claim. -/
def getUsageForRangeSpec (startDate endDate : String) (usage : UsageStore) : UsageBucket :=
  let inRange := usage.byDay.filter (fun p => decide (startDate ≤ p.1 ∧ p.1 ≤ endDate))
  { input := (inRange.map (fun p => p.2.input)).sum
    output := (inRange.map (fun p => p.2.output)).sum
    total := (inRange.map (fun p => p.2.total)).sum
    messageCount := (inRange.map (fun p => p.2.messageCount)).sum }

/-- Embedding of `getChatUsage(chatId)`: the per-chat bucket or the zero
bucket. -/
def getChatUsage (chatId : String) (usage : UsageStore) : UsageBucket :=
  (alookup chatId usage.byChat).getD .zero

/-- Embedding of the one-time legacy migration in `loadSettings` for a single
numeric per-model day entry:
`ratio = dayData.total ? value / dayData.total : 0`, input/output estimated
with `Math.round(dayData.input * ratio)` / `Math.round(dayData.output * ratio)`
and `total` preserved as the legacy value. JS number arithmetic is modelled
over `ℚ`; `Math.round x = ⌊x + 1/2⌋` coincides with Mathlib's `round`. -/
def migrateLegacyModelEntry (dayInput dayOutput dayTotal value : Nat) : ModelBucket :=
  let ratio : ℚ := if dayTotal = 0 then 0 else (value : ℚ) / (dayTotal : ℚ)
  { input := (round ((dayInput : ℚ) * ratio)).toNat
    output := (round ((dayOutput : ℚ) * ratio)).toNat
    total := value }

/-- Per-model price record; the source stores `{ in, out }` (price per one
million input/output tokens), named `priceIn` / `priceOut` here because `in`
is a Lean keyword. -/
structure ModelPrice where
  priceIn : ℚ
  priceOut : ℚ
  deriving Repr, DecidableEq

/-- Embedding of `getModelPrice(modelId)`: the stored price or the
`{ in: 0, out: 0 }` default. -/
def getModelPrice (modelPrices : List (String × ModelPrice)) (modelId : String) : ModelPrice :=
  (alookup modelId modelPrices).getD ⟨0, 0⟩

/-- Embedding of `calculateCost(inputTokens, outputTokens, modelId)`:
`(inputTokens / 1e6) * prices.in + (outputTokens / 1e6) * prices.out`, with an
early zero when both prices are unset (falsy). -/
def calculateCost (modelPrices : List (String × ModelPrice))
    (inputTokens outputTokens : Nat) (modelId : String) : ℚ :=
  let prices := getModelPrice modelPrices modelId
  if prices.priceIn = 0 ∧ prices.priceOut = 0 then 0
  else (inputTokens : ℚ) / 1000000 * prices.priceIn
    + (outputTokens : ℚ) / 1000000 * prices.priceOut

/-- Notifications `checkWarnings` can fire via `toastr`. -/
inductive WarningKind where
  | dailyThreshold
  | budgetAlert
  | budgetApproach
  deriving Repr, DecidableEq

/-- Month-cost recomputation inside `checkWarnings`: the sum of per-day
per-model cost contributions over the days whose month key equals the current
month. `monthKeyOf` abstracts `getMonthKey(new Date(year, month - 1, day))`
applied to the parsed day key (wall-clock/date arithmetic is external). -/
def monthCost (modelPrices : List (String × ModelPrice)) (monthKeyOf : String → String)
    (currentMonthKey : String) (byDay : List (String × DayBucket)) : ℚ :=
  (byDay.map (fun p =>
    if monthKeyOf p.1 = currentMonthKey then
      (p.2.models.map (fun q => calculateCost modelPrices q.2.input q.2.output q.1)).sum
    else 0)).sum

/-- Embedding of `checkWarnings()` as a pure value: the list of notifications
fired, given today's running total and the `byDay` map. A non-positive
`warningThreshold` / `budgetLimit` disables the corresponding check; at or
above the budget limit only the alert fires, at or above 80 percent of it only
the approach warning fires. -/
def checkWarnings (warningThreshold : Nat) (budgetLimit : ℚ)
    (modelPrices : List (String × ModelPrice)) (monthKeyOf : String → String)
    (currentMonthKey : String) (todayTotal : Nat) (byDay : List (String × DayBucket)) :
    List WarningKind :=
  let daily :=
    if 0 < warningThreshold ∧ warningThreshold ≤ todayTotal then
      [WarningKind.dailyThreshold]
    else []
  let budget :=
    if 0 < budgetLimit then
      let cost := monthCost modelPrices monthKeyOf currentMonthKey byDay
      if budgetLimit ≤ cost then [WarningKind.budgetAlert]
      else if budgetLimit * (8 / 10) ≤ cost then [WarningKind.budgetApproach]
      else []
    else []
  daily ++ budget

/-- Tail of `recordUsage`: the store update followed by the `checkWarnings`
side effect. The check's outcome is returned alongside the updated store and
never alters it (`stats.today.total` is the freshly updated day bucket,
`currentMonthKey` is `getMonthKey(now)`). -/
def recordUsageWithWarnings (inputTokens outputTokens : Nat) (chatId modelId : Option String)
    (now : TimeKeys) (warningThreshold : Nat) (budgetLimit : ℚ)
    (modelPrices : List (String × ModelPrice)) (monthKeyOf : String → String)
    (usage : UsageStore) : UsageStore × List WarningKind :=
  let u := recordUsage inputTokens outputTokens chatId modelId now usage
  let todayTotal := ((alookup now.day u.byDay).getD .zero).total
  (u, checkWarnings warningThreshold budgetLimit modelPrices monthKeyOf now.month
       todayTotal u.byDay)

/-- Embedding of `countTokens(text)`: an empty string or a non-string value
short-circuits to 0; otherwise the external tokenizer pipeline `tok` (the body
of the `try` block) runs, and a thrown error falls back to
`Math.ceil(text.length / 3.35)`. The argument is `none` for a non-string value
and `some text` for a string. -/
def countTokens (tok : String → Except Unit Nat) : Option String → Nat
  | none => 0
  | some text =>
    if text = "" then 0
    else
      match tok text with
      | .ok n => n
      | .error _ => (Int.ceil ((text.length : ℚ) / (335 / 100))).toNat

/-- Transient lifecycle-tracker state: the module-level variables
`pendingInputTokensPromise` (here the value the stored future resolves to),
`pendingModelId`, `preContinueTokenCount`, `isQuietGeneration` and
`isImpersonateGeneration`. -/
structure PendingState where
  pendingInputTokens : Option Nat
  pendingModelId : Option String
  preContinueTokenCount : Nat
  isQuietGeneration : Bool
  isImpersonateGeneration : Bool
  deriving Repr, DecidableEq

/-- The fully reset transient state. -/
def PendingState.cleared : PendingState :=
  { pendingInputTokens := none
    pendingModelId := none
    preContinueTokenCount := 0
    isQuietGeneration := false
    isImpersonateGeneration := false }

/-- One chat message as the tracker sees it: its body `mes`, the optional
precomputed `extra.token_count` and the optional `extra.reasoning` text. -/
structure ChatMessage where
  mes : String
  tokenCount : Option Nat
  reasoning : Option String
  deriving Repr, DecidableEq

/-- One synthesized `recordUsage(inputTokens, outputTokens, chatId, modelId)`
call emitted by an event handler. -/
structure RecordCall where
  inputTokens : Nat
  outputTokens : Nat
  chatId : Option String
  modelId : Option String
  deriving Repr, DecidableEq

/-- Apply the `recordUsage` call produced by an event handler, if any, to the
store. -/
def applyRecordCall (call : Option RecordCall) (now : TimeKeys) (u : UsageStore) : UsageStore :=
  match call with
  | some r => recordUsage r.inputTokens r.outputTokens r.chatId r.modelId now u
  | none => u

/-- Manual output counting used by `handleMessageReceived` and
`handleGenerationStarted` when no precomputed count is available: tokenize the
message body, plus the reasoning text when present. -/
def manualMessageTokens (tok : String → Except Unit Nat) (msg : ChatMessage) : Nat :=
  countTokens tok (some msg.mes) +
    (match msg.reasoning with
     | some r => countTokens tok (some r)
     | none => 0)

/-- Output-token measurement of a chat message: the precomputed
`extra.token_count` when present and nonzero (`token_count &&` is falsy at 0),
otherwise the manual count. The same logic snapshots the pre-continue baseline
in `handleGenerationStarted`. -/
def measuredMessageTokens (tok : String → Except Unit Nat) (msg : ChatMessage) : Nat :=
  match msg.tokenCount with
  | some n => if n = 0 then manualMessageTokens tok msg else n
  | none => manualMessageTokens tok msg

/-- Embedding of `handleGenerateAfterData(generate_data, dryRun)`: on a real
run, capture the current model id and start input counting without awaiting
it; the stored future resolves to the count, or to 0 when counting threw
(`.catch(error => ... return 0)`). `countResult` is the outcome of
`countInputTokens(generate_data)`. -/
def handleGenerateAfterData (dryRun : Bool) (modelId : String)
    (countResult : Except Unit Nat) (st : PendingState) : PendingState :=
  if dryRun then st
  else
    { st with
      pendingModelId := some modelId
      pendingInputTokens := some
        (match countResult with
         | .ok n => n
         | .error _ => 0) }

/-- Embedding of `handleGenerationStarted(type, params, isDryRun)`: tag the
generation kind, reset the pre-continue baseline, and for a `continue`
generation snapshot the last chat message's token count as the new baseline.
`lastMessage` is `context.chat[context.chat.length - 1]` (`none` when the chat
is empty or reading it threw). -/
def handleGenerationStarted (tok : String → Except Unit Nat) (type : String)
    (isDryRun : Bool) (lastMessage : Option ChatMessage) (st : PendingState) : PendingState :=
  if isDryRun then st
  else
    let st := { st with
      isQuietGeneration := decide (type = "quiet")
      isImpersonateGeneration := decide (type = "impersonate")
      preContinueTokenCount := 0 }
    if type = "continue" then
      match lastMessage with
      | none => st
      | some msg => { st with preContinueTokenCount := measuredMessageTokens tok msg }
    else st

/-- Embedding of `handleMessageReceived(messageIndex, type)`: the recording
decision for a message-received event. `message` is
`context.chat[messageIndex]` (`none` when absent) and `chatId` is
`context.chatMetadata?.chat_id`. Returns the updated transient state and the
`recordUsage` call made, if any. -/
def handleMessageReceived (tok : String → Except Unit Nat) (st : PendingState)
    (type : String) (message : Option ChatMessage) (chatId : Option String) :
    PendingState × Option RecordCall :=
  if type = "command" ∨ type = "first_message" then (st, none)
  else
    match st.pendingInputTokens with
    | none => (st, none)
    | some inputTokens =>
      match message with
      | none => (st, none)
      | some msg =>
        if msg.mes = "" then (st, none)
        else
          let outputTokens := measuredMessageTokens tok msg
          let outputTokens :=
            if type = "continue" ∧ 0 < st.preContinueTokenCount then
              outputTokens - st.preContinueTokenCount
            else outputTokens
          ({ st with
              preContinueTokenCount := 0
              pendingInputTokens := none
              pendingModelId := none },
            some { inputTokens := inputTokens
                   outputTokens := outputTokens
                   chatId := chatId
                   modelId := st.pendingModelId })

/-- Embedding of `handleChatChanged(chatId)`: discard any pending generation
state and reset every transient flag. -/
def handleChatChanged (st : PendingState) : PendingState :=
  { st with
    pendingInputTokens := none
    pendingModelId := none
    preContinueTokenCount := 0
    isQuietGeneration := false
    isImpersonateGeneration := false }

/-- Partial streamed output available to a flush:
`streamingProcessor?.result` tokenized when truthy, else 0. -/
def flushOutputTokens (tok : String → Except Unit Nat) (streamingResult : Option String) : Nat :=
  match streamingResult with
  | some s => if s = "" then 0 else countTokens tok (some s)
  | none => 0

/-- Embedding of `flushQuietGeneration()`: record a pending quiet generation
from the resolved input future and any partial streaming output — but only
when at least one of the two counts is positive — then clear the pending slot
(`finally` resets the future, the model id and the quiet flag). -/
def flushQuietGeneration (tok : String → Except Unit Nat)
    (streamingResult : Option String) (st : PendingState) : PendingState × Option RecordCall :=
  match st.pendingInputTokens with
  | none => (st, none)
  | some inputTokens =>
    let outputTokens := flushOutputTokens tok streamingResult
    let call :=
      if 0 < inputTokens ∨ 0 < outputTokens then
        some { inputTokens := inputTokens
               outputTokens := outputTokens
               chatId := none
               modelId := st.pendingModelId }
      else none
    ({ st with
        pendingInputTokens := none
        pendingModelId := none
        isQuietGeneration := false }, call)

/-- Full processing of one `CHAT_CHANGED` emission. `patchBackgroundGenerations()`
runs during `init` before the main handlers are registered, so the quiet-flush
listener installed by `patchGenerateQuietPrompt` runs first, then
`handleChatChanged`. -/
def chatChangedEvent (tok : String → Except Unit Nat) (streamingResult : Option String)
    (st : PendingState) : PendingState × Option RecordCall :=
  let flushed :=
    if st.isQuietGeneration && st.pendingInputTokens.isSome then
      flushQuietGeneration tok streamingResult st
    else (st, none)
  (handleChatChanged flushed.1, flushed.2)

/-- Full processing of one `GENERATION_STARTED` emission: the quiet-flush
listener (registered first) runs, then `handleGenerationStarted`. -/
def generationStartedEvent (tok : String → Except Unit Nat) (streamingResult : Option String)
    (type : String) (isDryRun : Bool) (lastMessage : Option ChatMessage)
    (st : PendingState) : PendingState × Option RecordCall :=
  let flushed :=
    if !isDryRun && (st.isQuietGeneration && st.pendingInputTokens.isSome) then
      flushQuietGeneration tok streamingResult st
    else (st, none)
  (handleGenerationStarted tok type isDryRun lastMessage flushed.1, flushed.2)

/-! Association-list lemmas. -/

theorem alookup_upsert_self {β : Type} (k : String) (d : β) (f : β → β)
    (l : List (String × β)) :
    alookup k (upsert k d f l) = some (f ((alookup k l).getD d)) := by
  induction l with
  | nil => simp [alookup, upsert]
  | cons hd tl ih =>
    obtain ⟨k', v⟩ := hd
    by_cases h : k' = k
    · subst h
      simp [alookup, upsert]
    · simp [alookup, upsert, h, ih]

theorem alookup_upsert_ne {β : Type} {k k' : String} (h : k' ≠ k) (d : β) (f : β → β)
    (l : List (String × β)) :
    alookup k' (upsert k d f l) = alookup k' l := by
  induction l with
  | nil => simp [alookup, upsert, h, Ne.symm h]
  | cons hd tl ih =>
    obtain ⟨k'', v⟩ := hd
    by_cases h2 : k'' = k
    · subst h2
      simp [alookup, upsert, Ne.symm h]
    · simp [alookup, upsert, h2, ih]

theorem sum_map_upsert {β : Type} (w : β → Nat) (k : String) (d : β) (f : β → β)
    (δ : Nat) (hd : w d = 0) (hf : ∀ b, w (f b) = w b + δ) (l : List (String × β)) :
    ((upsert k d f l).map (fun p => w p.2)).sum = (l.map (fun p => w p.2)).sum + δ := by
  induction l with
  | nil => simp [upsert, hf, hd]
  | cons hd' tl ih =>
    obtain ⟨k', v⟩ := hd'
    by_cases h : k' = k
    · simp only [upsert, if_pos h, List.map_cons, List.sum_cons, hf]
      omega
    · simp only [upsert, if_neg h, List.map_cons, List.sum_cons, ih]
      omega

/-! Component lemmas about one `recordUsage` step. -/

theorem recordUsage_allTime (i o : Nat) (c m : Option String) (now : TimeKeys)
    (u : UsageStore) :
    (recordUsage i o c m now u).allTime = addTokens i o u.allTime := by
  cases c <;> cases m <;> simp [recordUsage]

theorem recordUsage_byDay_none (i o : Nat) (c : Option String) (now : TimeKeys)
    (u : UsageStore) :
    (recordUsage i o c none now u).byDay =
      upsert now.day .zero (addTokensDay i o) u.byDay := by
  cases c <;> simp [recordUsage]

theorem recordUsage_byDay_some (i o : Nat) (c : Option String) (mid : String)
    (now : TimeKeys) (u : UsageStore) :
    (recordUsage i o c (some mid) now u).byDay =
      upsert now.day .zero
        (fun d => { d with models := upsert mid .zero (addModelTokens i o) d.models })
        (upsert now.day .zero (addTokensDay i o) u.byDay) := by
  cases c <;> simp [recordUsage]

theorem recordUsage_byModel_none (i o : Nat) (c : Option String) (now : TimeKeys)
    (u : UsageStore) :
    (recordUsage i o c none now u).byModel = u.byModel := by
  cases c <;> simp [recordUsage]

theorem recordUsage_byModel_some (i o : Nat) (c : Option String) (mid : String)
    (now : TimeKeys) (u : UsageStore) :
    (recordUsage i o c (some mid) now u).byModel =
      upsert mid .zero (addTokens i o) u.byModel := by
  cases c <;> simp [recordUsage]

theorem recordUsage_byChat_some (i o : Nat) (cid : String) (m : Option String)
    (now : TimeKeys) (u : UsageStore) :
    (recordUsage i o (some cid) m now u).byChat =
      upsert cid .zero (addTokens i o) u.byChat := by
  cases m <;> simp [recordUsage]

/-- Running totals: total of all calls (input plus output summed). -/
def sumCallTotals (calls : List Call) : Nat :=
  (calls.map (fun c => c.inputTokens + c.outputTokens)).sum

/-- Componentwise sum of `byDay` totals over all days. -/
def sumDayTotals (u : UsageStore) : Nat := (u.byDay.map (fun p => p.2.total)).sum

/-- Componentwise sum of `byModel` totals over all models. -/
def sumModelTotals (u : UsageStore) : Nat := (u.byModel.map (fun p => p.2.total)).sum

/-- Sum of the per-model totals inside one day bucket. -/
def dayModelsSum (b : DayBucket) : Nat := (b.models.map (fun p => p.2.total)).sum

theorem recordUsage_sumDayTotals (i o : Nat) (c m : Option String) (now : TimeKeys)
    (u : UsageStore) :
    sumDayTotals (recordUsage i o c m now u) = sumDayTotals u + (i + o) := by
  unfold sumDayTotals
  cases m with
  | none =>
    rw [recordUsage_byDay_none]
    exact sum_map_upsert DayBucket.total now.day .zero (addTokensDay i o) (i + o) rfl
      (fun b => rfl) u.byDay
  | some mid =>
    rw [recordUsage_byDay_some,
      sum_map_upsert DayBucket.total now.day .zero
        (fun d => { d with models := upsert mid .zero (addModelTokens i o) d.models })
        0 rfl (fun b => rfl),
      sum_map_upsert DayBucket.total now.day .zero (addTokensDay i o) (i + o) rfl
        (fun b => rfl) u.byDay]
    omega

theorem recordUsage_sumModelTotals_some (i o : Nat) (c : Option String) (mid : String)
    (now : TimeKeys) (u : UsageStore) :
    sumModelTotals (recordUsage i o c (some mid) now u) = sumModelTotals u + (i + o) := by
  unfold sumModelTotals
  rw [recordUsage_byModel_some]
  exact sum_map_upsert UsageBucket.total mid .zero (addTokens i o) (i + o) rfl
    (fun b => rfl) u.byModel

theorem applyCalls_cons (c : Call) (cs : List Call) (u : UsageStore) :
    applyCalls (c :: cs) u =
      applyCalls cs (recordUsage c.inputTokens c.outputTokens c.chatId c.modelId c.now u) :=
  rfl

theorem applyCalls_allTime_total (calls : List Call) (u : UsageStore) :
    (applyCalls calls u).allTime.total = u.allTime.total + sumCallTotals calls := by
  induction calls generalizing u with
  | nil => simp [applyCalls, sumCallTotals]
  | cons c cs ih =>
    rw [applyCalls_cons, ih, recordUsage_allTime]
    simp only [sumCallTotals, addTokens, List.map_cons, List.sum_cons]
    omega

theorem applyCalls_sumDayTotals (calls : List Call) (u : UsageStore) :
    sumDayTotals (applyCalls calls u) = sumDayTotals u + sumCallTotals calls := by
  induction calls generalizing u with
  | nil => simp [applyCalls, sumCallTotals]
  | cons c cs ih =>
    rw [applyCalls_cons, ih, recordUsage_sumDayTotals]
    simp only [sumCallTotals, List.map_cons, List.sum_cons]
    omega

theorem applyCalls_sumModelTotals (calls : List Call) (u : UsageStore)
    (h : ∀ c ∈ calls, c.modelId.isSome) :
    sumModelTotals (applyCalls calls u) = sumModelTotals u + sumCallTotals calls := by
  induction calls generalizing u with
  | nil => simp [applyCalls, sumCallTotals]
  | cons c cs ih =>
    obtain ⟨mid, hmid⟩ := Option.isSome_iff_exists.mp (h c (List.mem_cons_self c cs))
    rw [applyCalls_cons, ih _ (fun c' hc' => h c' (List.mem_cons_of_mem _ hc')), hmid,
      recordUsage_sumModelTotals_some]
    simp only [sumCallTotals, List.map_cons, List.sum_cons]
    omega

theorem recordUsage_day_lookup (i o : Nat) (c m : Option String) (now : TimeKeys)
    (u : UsageStore) :
    ∃ b, alookup now.day (recordUsage i o c m now u).byDay = some b ∧
      b.input = ((alookup now.day u.byDay).getD .zero).input + i ∧
      b.output = ((alookup now.day u.byDay).getD .zero).output + o ∧
      b.total = ((alookup now.day u.byDay).getD .zero).total + (i + o) ∧
      b.messageCount = ((alookup now.day u.byDay).getD .zero).messageCount + 1 := by
  cases m with
  | none =>
    rw [recordUsage_byDay_none, alookup_upsert_self]
    exact ⟨_, rfl, rfl, rfl, rfl, rfl⟩
  | some mid =>
    rw [recordUsage_byDay_some, alookup_upsert_self, alookup_upsert_self]
    refine ⟨_, rfl, ?_, ?_, ?_, ?_⟩ <;> simp [addTokensDay]

theorem recordUsage_day_frame (i o : Nat) (c m : Option String) (now : TimeKeys)
    (u : UsageStore) (d : String) (hd : d ≠ now.day) :
    alookup d (recordUsage i o c m now u).byDay = alookup d u.byDay := by
  cases m with
  | none => rw [recordUsage_byDay_none, alookup_upsert_ne hd]
  | some mid => rw [recordUsage_byDay_some, alookup_upsert_ne hd, alookup_upsert_ne hd]

/-- Concrete wall-clock keys used by the scenario parts of claims (two calls
"on the same day"). -/
def tkScenario : TimeKeys := ⟨"2025-01-15", "2025-01-15T14", "2025-W03", "2025-01"⟩

/-- The two-call scenario: `record(100, 50, "chat1", "gpt-4o")` followed by
`record(200, 75, "chat1", "gpt-4o")` on the same day. -/
def scenarioCalls : List Call :=
  [⟨100, 50, some "chat1", some "gpt-4o", tkScenario⟩,
   ⟨200, 75, some "chat1", some "gpt-4o", tkScenario⟩]

/-- C1: every `recordUsage` call adds the identical delta (`i` to input, `o`
to output, `i + o` to total, one message) to `allTime` and to exactly one day
bucket (all other day buckets are untouched); consequently, starting from the
zero store, `allTime.total` equals the sum of all `i + o` over the calls,
equals the sum of the `byDay` totals, and equals the sum of the `byModel`
totals whenever every call supplied a model id; and the two-call same-day
scenario yields `byModel["gpt-4o"] = {input: 300, output: 125, total: 425,
messageCount: 2}`, `byChat["chat1"].total = 425` and `allTime.total = 425`. -/
theorem recordUsage_totals_invariant :
    (∀ i o c m now (u : UsageStore),
      ((recordUsage i o c m now u).allTime.input = u.allTime.input + i ∧
       (recordUsage i o c m now u).allTime.output = u.allTime.output + o ∧
       (recordUsage i o c m now u).allTime.total = u.allTime.total + (i + o) ∧
       (recordUsage i o c m now u).allTime.messageCount = u.allTime.messageCount + 1) ∧
      (∃ b, alookup now.day (recordUsage i o c m now u).byDay = some b ∧
        b.input = ((alookup now.day u.byDay).getD .zero).input + i ∧
        b.output = ((alookup now.day u.byDay).getD .zero).output + o ∧
        b.total = ((alookup now.day u.byDay).getD .zero).total + (i + o) ∧
        b.messageCount = ((alookup now.day u.byDay).getD .zero).messageCount + 1) ∧
      (∀ d, d ≠ now.day →
        alookup d (recordUsage i o c m now u).byDay = alookup d u.byDay)) ∧
    (∀ calls : List Call,
      (applyCalls calls .zero).allTime.total = sumCallTotals calls ∧
      (applyCalls calls .zero).allTime.total = sumDayTotals (applyCalls calls .zero) ∧
      ((∀ c ∈ calls, c.modelId.isSome) →
        (applyCalls calls .zero).allTime.total = sumModelTotals (applyCalls calls .zero))) ∧
    (alookup "gpt-4o" (applyCalls scenarioCalls .zero).byModel = some ⟨300, 125, 425, 2⟩ ∧
     ((alookup "chat1" (applyCalls scenarioCalls .zero).byChat).getD .zero).total = 425 ∧
     (applyCalls scenarioCalls .zero).allTime.total = 425) := by
  refine ⟨?_, ?_, by decide, by decide, by decide⟩
  · intro i o c m now u
    refine ⟨?_, recordUsage_day_lookup i o c m now u, fun d hd => recordUsage_day_frame i o c m now u d hd⟩
    rw [recordUsage_allTime]
    exact ⟨rfl, rfl, rfl, rfl⟩
  · intro calls
    refine ⟨?_, ?_, ?_⟩
    · rw [applyCalls_allTime_total]
      simp [UsageStore.zero, UsageBucket.zero]
    · rw [applyCalls_allTime_total, applyCalls_sumDayTotals]
      simp [UsageStore.zero, UsageBucket.zero, sumDayTotals]
    · intro h
      rw [applyCalls_allTime_total, applyCalls_sumModelTotals calls _ h]
      simp [UsageStore.zero, UsageBucket.zero, sumModelTotals]

/-- Witness for `recordUsage_totals_invariant`: its hypotheses discharged at
the concrete scenario calls and a concrete distinct day key. -/
theorem recordUsage_totals_invariant_witness :
    (applyCalls scenarioCalls .zero).allTime.total = sumCallTotals scenarioCalls ∧
    (∀ c ∈ scenarioCalls, c.modelId.isSome) ∧
    (applyCalls scenarioCalls .zero).allTime.total =
      sumModelTotals (applyCalls scenarioCalls .zero) ∧
    ("x" : String) ≠ tkScenario.day ∧
    alookup "x"
        (recordUsage 1 2 none none tkScenario UsageStore.zero).byDay =
      alookup "x" UsageStore.zero.byDay := by
  refine ⟨(recordUsage_totals_invariant.2.1 scenarioCalls).1, by decide,
    (recordUsage_totals_invariant.2.1 scenarioCalls).2.2 (by decide), by decide,
    (recordUsage_totals_invariant.1 1 2 none none tkScenario UsageStore.zero).2.2 "x" (by decide)⟩

theorem applyCalls_snoc (cs : List Call) (c : Call) (u : UsageStore) :
    applyCalls (cs ++ [c]) u =
      recordUsage c.inputTokens c.outputTokens c.chatId c.modelId c.now (applyCalls cs u) := by
  simp [applyCalls, List.foldl_append]

theorem recordUsage_day_lookup_none (i o : Nat) (c : Option String) (now : TimeKeys)
    (u : UsageStore) :
    alookup now.day (recordUsage i o c none now u).byDay =
      some (addTokensDay i o ((alookup now.day u.byDay).getD .zero)) := by
  rw [recordUsage_byDay_none, alookup_upsert_self]

theorem recordUsage_day_lookup_some (i o : Nat) (c : Option String) (mid : String)
    (now : TimeKeys) (u : UsageStore) :
    alookup now.day (recordUsage i o c (some mid) now u).byDay =
      some { addTokensDay i o ((alookup now.day u.byDay).getD .zero) with
             models := upsert mid .zero (addModelTokens i o)
               (addTokensDay i o ((alookup now.day u.byDay).getD .zero)).models } := by
  rw [recordUsage_byDay_some, alookup_upsert_self, alookup_upsert_self]
  simp

theorem dayModelsSum_addTokensDay (i o : Nat) (b : DayBucket) :
    dayModelsSum (addTokensDay i o b) = dayModelsSum b := rfl

theorem dayModelsSum_upsertModel (i o : Nat) (mid : String) (b : DayBucket) :
    dayModelsSum { b with models := upsert mid .zero (addModelTokens i o) b.models } =
      dayModelsSum b + (i + o) :=
  sum_map_upsert ModelBucket.total mid .zero (addModelTokens i o) (i + o) rfl
    (fun _ => rfl) b.models

/-- C7: within every day bucket of a store built by a sequence of `recordUsage`
calls from the zero store, the sum of the per-model totals never exceeds the
day's total, with equality when every call touching that day supplied a model
id. -/
theorem day_model_totals_bound (calls : List Call) (D : String) (b : DayBucket)
    (hb : alookup D (applyCalls calls .zero).byDay = some b) :
    dayModelsSum b ≤ b.total ∧
      ((∀ c ∈ calls, c.now.day = D → c.modelId.isSome) → dayModelsSum b = b.total) := by
  induction calls using List.reverseRecOn generalizing b with
  | nil => simp [applyCalls, UsageStore.zero, alookup] at hb
  | append_singleton cs c ih =>
    rw [applyCalls_snoc] at hb
    by_cases hD : D = c.now.day
    · subst hD
      have hold : dayModelsSum ((alookup c.now.day (applyCalls cs .zero).byDay).getD .zero) ≤
          ((alookup c.now.day (applyCalls cs .zero).byDay).getD .zero).total ∧
          ((∀ c' ∈ cs, c'.now.day = c.now.day → c'.modelId.isSome) →
            dayModelsSum ((alookup c.now.day (applyCalls cs .zero).byDay).getD .zero) =
              ((alookup c.now.day (applyCalls cs .zero).byDay).getD .zero).total) := by
        cases hq : alookup c.now.day (applyCalls cs .zero).byDay with
        | none => exact ⟨le_refl _, fun _ => rfl⟩
        | some oldb =>
          simpa using ih oldb hq
      cases hm : c.modelId with
      | none =>
        rw [hm, recordUsage_day_lookup_none] at hb
        have hbv := Option.some_inj.mp hb
        subst hbv
        constructor
        · rw [dayModelsSum_addTokensDay]
          simp only [addTokensDay]
          omega
        · intro hall
          have hc := hall c (List.mem_append_right _ (List.mem_singleton.mpr rfl)) rfl
          rw [hm] at hc
          simp at hc
      | some mid =>
        rw [hm, recordUsage_day_lookup_some] at hb
        have hbv := Option.some_inj.mp hb
        subst hbv
        have hsum := dayModelsSum_upsertModel c.inputTokens c.outputTokens mid
          (addTokensDay c.inputTokens c.outputTokens
            ((alookup c.now.day (applyCalls cs .zero).byDay).getD .zero))
        rw [dayModelsSum_addTokensDay] at hsum
        constructor
        · rw [hsum]
          simp only [addTokensDay]
          omega
        · intro hall
          have h1 := hold.2 (fun c' hc' hd => hall c' (List.mem_append_left _ hc') hd)
          rw [hsum]
          simp only [addTokensDay]
          omega
    · rw [recordUsage_day_frame c.inputTokens c.outputTokens c.chatId c.modelId c.now
        (applyCalls cs .zero) D hD] at hb
      exact ⟨(ih b hb).1,
        fun hall => (ih b hb).2 (fun c' hc' hd => hall c' (List.mem_append_left _ hc') hd)⟩

/-- Witness for `day_model_totals_bound`: the scenario store on its day key. -/
theorem day_model_totals_bound_witness :
    dayModelsSum
        ((alookup "2025-01-15" (applyCalls scenarioCalls .zero).byDay).getD .zero) =
      ((alookup "2025-01-15" (applyCalls scenarioCalls .zero).byDay).getD .zero).total := by
  have h := day_model_totals_bound scenarioCalls "2025-01-15"
    ((alookup "2025-01-15" (applyCalls scenarioCalls .zero).byDay).getD .zero) (by decide)
  exact h.2 (by decide)

theorem range_foldl_general (s e : String) (l : List (String × DayBucket))
    (acc : UsageBucket) :
    (l.foldl
      (fun result p =>
        if s ≤ p.1 ∧ p.1 ≤ e then
          { input := result.input + p.2.input
            output := result.output + p.2.output
            total := result.total + p.2.total
            messageCount := result.messageCount + p.2.messageCount }
        else result)
      acc) =
    { input :=
        acc.input + ((l.filter (fun p => decide (s ≤ p.1 ∧ p.1 ≤ e))).map (fun p => p.2.input)).sum
      output :=
        acc.output + ((l.filter (fun p => decide (s ≤ p.1 ∧ p.1 ≤ e))).map (fun p => p.2.output)).sum
      total :=
        acc.total + ((l.filter (fun p => decide (s ≤ p.1 ∧ p.1 ≤ e))).map (fun p => p.2.total)).sum
      messageCount :=
        acc.messageCount +
          ((l.filter (fun p => decide (s ≤ p.1 ∧ p.1 ≤ e))).map (fun p => p.2.messageCount)).sum } := by
  induction l generalizing acc with
  | nil => simp
  | cons hd tl ih =>
    by_cases h : s ≤ hd.1 ∧ hd.1 ≤ e
    · have hb : decide (s ≤ hd.1 ∧ hd.1 ≤ e) = true := decide_eq_true h
      rw [List.foldl_cons, if_pos h, ih, List.filter_cons, if_pos hb]
      simp only [List.map_cons, List.sum_cons, UsageBucket.mk.injEq]
      refine ⟨?_, ?_, ?_, ?_⟩ <;> omega
    · have hb : ¬(decide (s ≤ hd.1 ∧ hd.1 ≤ e) = true) := by
        rw [decide_eq_false h]
        exact Bool.false_ne_true
      rw [List.foldl_cons, if_neg h, ih, List.filter_cons, if_neg hb]

theorem filter_singleton_of_alookup (D : String) (b : DayBucket)
    (l : List (String × DayBucket)) (hnd : (l.map Prod.fst).Nodup)
    (hlook : alookup D l = some b) :
    l.filter (fun p => decide (D ≤ p.1 ∧ p.1 ≤ D)) = [(D, b)] := by
  induction l with
  | nil => simp [alookup] at hlook
  | cons hd tl ih =>
    obtain ⟨k, v⟩ := hd
    simp only [List.map_cons, List.nodup_cons] at hnd
    by_cases hk : k = D
    · subst hk
      rw [alookup, if_pos rfl] at hlook
      injection hlook with hv
      subst hv
      have htl : tl.filter (fun p => decide (k ≤ p.1 ∧ p.1 ≤ k)) = [] := by
        rw [List.filter_eq_nil_iff]
        intro p hp hcond
        have hc := of_decide_eq_true hcond
        exact hnd.1 ((le_antisymm hc.2 hc.1 : p.1 = k) ▸ List.mem_map_of_mem Prod.fst hp)
      have hhead : decide (k ≤ (k, v).1 ∧ (k, v).1 ≤ k) = true :=
        decide_eq_true ⟨le_refl _, le_refl _⟩
      rw [List.filter_cons, if_pos hhead, htl]
    · rw [alookup, if_neg hk] at hlook
      have hcond : ¬(D ≤ k ∧ k ≤ D) := fun hc => hk (le_antisymm hc.2 hc.1)
      simp only [List.filter_cons, hcond, decide_false_eq_false]
      simpa using ih hnd.2 hlook

/-- C6: `getUsageForRange(startDay, endDay)` returns the field-wise sum of
exactly those `byDay` entries whose key lies in the inclusive
string-lexicographic range `[startDay, endDay]`; in particular over `[D, D]`
it returns exactly the four counter fields of `byDay[D]` (day keys are unique
in a store). -/
theorem getUsageForRange_correct (s e : String) (u : UsageStore) :
    getUsageForRange s e u = getUsageForRangeSpec s e u ∧
    ∀ D b, (u.byDay.map Prod.fst).Nodup → alookup D u.byDay = some b →
      getUsageForRange D D u = ⟨b.input, b.output, b.total, b.messageCount⟩ := by
  have hmain : ∀ s' e', getUsageForRange s' e' u = getUsageForRangeSpec s' e' u := by
    intro s' e'
    unfold getUsageForRange getUsageForRangeSpec
    rw [range_foldl_general]
    simp
  refine ⟨hmain s e, ?_⟩
  intro D b hnd hlook
  rw [hmain D D]
  unfold getUsageForRangeSpec
  rw [filter_singleton_of_alookup D b u.byDay hnd hlook]
  simp

/-- Witness for `getUsageForRange_correct`: the single-day lookup equals the
day bucket on the scenario store. -/
theorem getUsageForRange_correct_witness :
    getUsageForRange "2025-01-15" "2025-01-15" (applyCalls scenarioCalls .zero) =
      ⟨300, 125, 425, 2⟩ := by
  have h := (getUsageForRange_correct "2025-01-15" "2025-01-15"
      (applyCalls scenarioCalls .zero)).2 "2025-01-15"
    ((alookup "2025-01-15" (applyCalls scenarioCalls .zero).byDay).getD .zero)
    (by decide) (by decide)
  rw [h]
  decide

theorem round_add_round_of_add_int (a b : ℚ) (v : ℤ) (h : a + b = (v : ℚ)) :
    round a + round b = v ∨ round a + round b = v + 1 := by
  have ha1 : ((round a : ℤ) : ℚ) ≤ a + 1 / 2 := by
    rw [round_eq]
    exact_mod_cast Int.floor_le (a + 1 / 2)
  have ha2 : a + 1 / 2 - 1 < ((round a : ℤ) : ℚ) := by
    rw [round_eq]
    exact_mod_cast Int.sub_one_lt_floor (a + 1 / 2)
  have hb1 : ((round b : ℤ) : ℚ) ≤ b + 1 / 2 := by
    rw [round_eq]
    exact_mod_cast Int.floor_le (b + 1 / 2)
  have hb2 : b + 1 / 2 - 1 < ((round b : ℤ) : ℚ) := by
    rw [round_eq]
    exact_mod_cast Int.sub_one_lt_floor (b + 1 / 2)
  have hup : round a + round b ≤ v + 1 := by
    have : ((round a + round b : ℤ) : ℚ) ≤ ((v + 1 : ℤ) : ℚ) := by push_cast; linarith
    exact_mod_cast this
  have hlo : v - 1 < round a + round b := by
    have : ((v - 1 : ℤ) : ℚ) < ((round a + round b : ℤ) : ℚ) := by push_cast; linarith
    exact_mod_cast this
  omega

theorem round_nonneg_of_nonneg (a : ℚ) (ha : 0 ≤ a) : 0 ≤ round a := by
  rw [round_eq, Int.le_floor]
  push_cast
  linarith

/-- C5: migration of a legacy numeric per-model day entry with a positive day
total preserves `total` exactly as the legacy value, computes the estimates by
`input = round(day.input * value / day.total)` and
`output = round(day.output * value / day.total)`, and whenever the day's input
and output add up to its total, the two estimates add up to the legacy value
within 1. -/
theorem migrateLegacy_correct (di dOut dt v : Nat) (ht : 0 < dt) :
    (migrateLegacyModelEntry di dOut dt v).total = v ∧
    (migrateLegacyModelEntry di dOut dt v).input = (round ((di * v : ℚ) / dt)).toNat ∧
    (migrateLegacyModelEntry di dOut dt v).output = (round ((dOut * v : ℚ) / dt)).toNat ∧
    (di + dOut = dt →
      |((migrateLegacyModelEntry di dOut dt v).input +
          (migrateLegacyModelEntry di dOut dt v).output : ℤ) - (v : ℤ)| ≤ 1) := by
  have htz : dt ≠ 0 := Nat.pos_iff_ne_zero.mp ht
  have htq : (dt : ℚ) ≠ 0 := Nat.cast_ne_zero.mpr htz
  have hin : (migrateLegacyModelEntry di dOut dt v).input =
      (round ((di * v : ℚ) / dt)).toNat := by
    simp only [migrateLegacyModelEntry, if_neg htz]
    congr 2
    rw [mul_div_assoc]
  have hout : (migrateLegacyModelEntry di dOut dt v).output =
      (round ((dOut * v : ℚ) / dt)).toNat := by
    simp only [migrateLegacyModelEntry, if_neg htz]
    congr 2
    rw [mul_div_assoc]
  refine ⟨rfl, hin, hout, ?_⟩
  intro hsum
  have hsq : (di : ℚ) + (dOut : ℚ) = (dt : ℚ) := by exact_mod_cast hsum
  have hab : (di * v : ℚ) / dt + (dOut * v : ℚ) / dt = ((v : ℤ) : ℚ) := by
    rw [div_add_div_same, ← add_mul, hsq]
    push_cast
    rw [mul_comm, mul_div_assoc, div_self htq, mul_one]
  have hround := round_add_round_of_add_int _ _ _ hab
  have ha0 : (0 : ℚ) ≤ (di * v : ℚ) / dt := by positivity
  have hb0 : (0 : ℚ) ≤ (dOut * v : ℚ) / dt := by positivity
  have hta : ((round ((di * v : ℚ) / dt)).toNat : ℤ) = round ((di * v : ℚ) / dt) :=
    Int.toNat_of_nonneg (round_nonneg_of_nonneg _ ha0)
  have htb : ((round ((dOut * v : ℚ) / dt)).toNat : ℤ) = round ((dOut * v : ℚ) / dt) :=
    Int.toNat_of_nonneg (round_nonneg_of_nonneg _ hb0)
  rw [hin, hout, hta, htb]
  rcases hround with h | h <;> rw [abs_le] <;> omega

/-- Witness for `migrateLegacy_correct`: the entry value 30 in a day with
input 40, output 60, total 100 migrates to `{input: 12, output: 18, total: 30}`
and satisfies the off-by-one bound. -/
theorem migrateLegacy_correct_witness :
    (0 : Nat) < 100 ∧
    (migrateLegacyModelEntry 40 60 100 30).total = 30 ∧
    |((migrateLegacyModelEntry 40 60 100 30).input +
        (migrateLegacyModelEntry 40 60 100 30).output : ℤ) - (30 : ℤ)| ≤ 1 := by
  refine ⟨by decide, (migrateLegacy_correct 40 60 100 30 (by decide)).1,
    (migrateLegacy_correct 40 60 100 30 (by decide)).2.2.2 (by decide)⟩

/-- Tokenizer stub for concrete witnesses: always succeeds with `n`. -/
def tokConst (n : Nat) : String → Except Unit Nat := fun _ => Except.ok n

/-- Tokenizer stub for concrete witnesses: always throws. -/
def tokFail : String → Except Unit Nat := fun _ => Except.error ()

theorem natSub_eq_intMax (T B : Nat) : (T - B : Nat) = (max 0 ((T : ℤ) - (B : ℤ))).toNat := by
  omega

/-- C2: a message-received event of kind `continue` processed with a pending
generation whose pre-continue baseline is `B > 0` and whose measured final
output token count is `T` records output `max(0, T - B)`, not `T`. -/
theorem continue_records_delta (tok : String → Except Unit Nat) (st : PendingState)
    (msg : ChatMessage) (chatId : Option String) (ip B : Nat)
    (hp : st.pendingInputTokens = some ip) (hB : st.preContinueTokenCount = B)
    (hBpos : 0 < B) (hmes : msg.mes ≠ "") :
    (handleMessageReceived tok st "continue" (some msg) chatId).2 =
      some { inputTokens := ip
             outputTokens := (max 0 ((measuredMessageTokens tok msg : ℤ) - (B : ℤ))).toNat
             chatId := chatId
             modelId := st.pendingModelId } := by
  rw [← natSub_eq_intMax]
  simp [handleMessageReceived, hp, hB, hmes, hBpos]

/-- Witness for `continue_records_delta`: baseline 3, measured output 8,
recorded output 5. -/
theorem continue_records_delta_witness :
    (handleMessageReceived (tokConst 8)
      ⟨some 11, some "gpt-4o", 3, false, false⟩ "continue"
      (some ⟨"hello", none, none⟩) none).2 =
      some ⟨11, 5, none, some "gpt-4o"⟩ := by
  rw [continue_records_delta (tokConst 8) ⟨some 11, some "gpt-4o", 3, false, false⟩
    ⟨"hello", none, none⟩ none 11 3 rfl rfl (by decide) (by decide)]
  decide

/-- C3 counterexample: processing a chat-changed event with a pending **quiet**
generation (input future resolved to 5) synthesizes a `recordUsage` call — the
flush listener installed by `patchGenerateQuietPrompt` runs before
`handleChatChanged` — and that call changes `allTime`; so a chat-changed event
does not leave every usage bucket unchanged for every pending generation. -/
theorem chatChanged_quiet_records :
    (chatChangedEvent (tokConst 0) none
      ⟨some 5, some "gpt-4o", 0, true, false⟩).2 =
        some ⟨5, 0, none, some "gpt-4o"⟩ ∧
    (applyRecordCall (chatChangedEvent (tokConst 0) none
        ⟨some 5, some "gpt-4o", 0, true, false⟩).2 tkScenario UsageStore.zero).allTime.total ≠
      UsageStore.zero.allTime.total := by
  exact ⟨by decide, by decide⟩

/-- C3 (amended): a chat-changed event always leaves the transient state fully
cleared, and for every pending generation that is not tagged quiet it
synthesizes no `recordUsage` call, leaving every usage bucket unchanged. (For
a pending quiet generation the registered-first flush listener may record it
before `handleChatChanged` clears the state.) -/
theorem chatChanged_frame (tok : String → Except Unit Nat) (sr : Option String)
    (st : PendingState) :
    (chatChangedEvent tok sr st).1 = PendingState.cleared ∧
    (st.isQuietGeneration = false →
      (chatChangedEvent tok sr st).2 = none ∧
      ∀ now u, applyRecordCall (chatChangedEvent tok sr st).2 now u = u) := by
  constructor
  · rfl
  · intro hq
    have h2 : (chatChangedEvent tok sr st).2 = none := by
      simp [chatChangedEvent, hq]
    exact ⟨h2, fun now u => by rw [h2]; rfl⟩

/-- Witness for `chatChanged_frame`: a non-quiet pending generation is dropped
without recording and the store is untouched. -/
theorem chatChanged_frame_witness :
    (chatChangedEvent (tokConst 0) none
      ⟨some 7, some "gpt-4o", 2, false, false⟩).1 = PendingState.cleared ∧
    (chatChangedEvent (tokConst 0) none
      ⟨some 7, some "gpt-4o", 2, false, false⟩).2 = none ∧
    applyRecordCall (chatChangedEvent (tokConst 0) none
      ⟨some 7, some "gpt-4o", 2, false, false⟩).2 tkScenario UsageStore.zero =
      UsageStore.zero := by
  have h := chatChanged_frame (tokConst 0) none ⟨some 7, some "gpt-4o", 2, false, false⟩
  exact ⟨h.1, (h.2 rfl).1, (h.2 rfl).2 tkScenario UsageStore.zero⟩

/-- C4 counterexample: a pending quiet generation whose awaited input count is
0, with no partial streamed output available, is **not** recorded when a new
non-dry-run generation starts or the chat changes — no `recordUsage` call is
synthesized (the flush records only when one of the two counts is positive). -/
theorem quietFlush_skips_both_zero :
    (generationStartedEvent (tokConst 0) none "normal" false none
      ⟨some 0, some "gpt-4o", 0, true, false⟩).2 = none ∧
    (chatChangedEvent (tokConst 0) none
      ⟨some 0, some "gpt-4o", 0, true, false⟩).2 = none := by
  exact ⟨by decide, by decide⟩

theorem handleGenerationStarted_pending (tok : String → Except Unit Nat) (type : String)
    (dr : Bool) (lm : Option ChatMessage) (st : PendingState) :
    (handleGenerationStarted tok type dr lm st).pendingInputTokens = st.pendingInputTokens := by
  by_cases hdr : dr
  · simp [handleGenerationStarted, hdr]
  · by_cases hc : type = "continue"
    · cases lm <;> simp [handleGenerationStarted, hdr, hc]
    · simp [handleGenerationStarted, hdr, hc]

/-- C4 (amended): when a quiet generation is pending (input future present,
quiet flag set) and a new non-dry-run generation starts or the chat changes,
exactly one `recordUsage` call is synthesized from the awaited input count and
the available partial streamed output — unless both counts are zero, in which
case no call is made; in either case the pending state is cleared before the
new transition proceeds. -/
theorem quietFlush_on_transition (tok : String → Except Unit Nat) (sr : Option String)
    (type : String) (lastMessage : Option ChatMessage) (st : PendingState) (ip : Nat)
    (hq : st.isQuietGeneration = true) (hp : st.pendingInputTokens = some ip) :
    ((0 < ip ∨ 0 < flushOutputTokens tok sr) →
      (generationStartedEvent tok sr type false lastMessage st).2 =
        some ⟨ip, flushOutputTokens tok sr, none, st.pendingModelId⟩ ∧
      (chatChangedEvent tok sr st).2 =
        some ⟨ip, flushOutputTokens tok sr, none, st.pendingModelId⟩) ∧
    (ip = 0 → flushOutputTokens tok sr = 0 →
      (generationStartedEvent tok sr type false lastMessage st).2 = none ∧
      (chatChangedEvent tok sr st).2 = none) ∧
    (generationStartedEvent tok sr type false lastMessage st).1.pendingInputTokens = none ∧
    (chatChangedEvent tok sr st).1.pendingInputTokens = none := by
  refine ⟨?_, ?_, ?_, ?_⟩
  · intro hpos
    constructor
    · simp [generationStartedEvent, flushQuietGeneration, hq, hp, if_pos hpos]
    · simp [chatChangedEvent, flushQuietGeneration, hq, hp, if_pos hpos]
  · intro h0 h1
    constructor
    · simp [generationStartedEvent, flushQuietGeneration, hq, hp, h0, h1]
    · simp [chatChangedEvent, flushQuietGeneration, hq, hp, h0, h1]
  · rw [show (generationStartedEvent tok sr type false lastMessage st).1 =
        handleGenerationStarted tok type false lastMessage
          (if !false && (st.isQuietGeneration && st.pendingInputTokens.isSome) then
            flushQuietGeneration tok sr st
          else (st, none)).1 from rfl,
      handleGenerationStarted_pending]
    simp [flushQuietGeneration, hq, hp]
  · rfl

/-- Witness for `quietFlush_on_transition`: input 40 with partial output 10 is
flushed as exactly one call when a normal generation starts. -/
theorem quietFlush_on_transition_witness :
    (generationStartedEvent (tokConst 10) (some "partial") "normal" false none
      ⟨some 40, some "gpt-4o", 0, true, false⟩).2 =
      some ⟨40, 10, none, some "gpt-4o"⟩ := by
  have h := (quietFlush_on_transition (tokConst 10) (some "partial") "normal" none
    ⟨some 40, some "gpt-4o", 0, true, false⟩ 40 rfl rfl).1 (by left; decide)
  rw [h.1]
  decide

/-- C9: tokenization failure never propagates to the recording path: the
public `countTokens` function resolves on a tokenizer error to the fixed
character-ratio estimate `ceil(length / 3.35)`, and the input-token future
created at request-ready resolves to 0 instead of rejecting when input
counting throws (the model id is still captured). -/
theorem tokenizer_failure_fallback :
    (∀ (tok : String → Except Unit Nat) (text : String) e, text ≠ "" →
      tok text = Except.error e →
      countTokens tok (some text) = (Int.ceil ((text.length : ℚ) / (335 / 100))).toNat) ∧
    (∀ (modelId : String) (countResult : Except Unit Nat) e (st : PendingState),
      countResult = Except.error e →
      (handleGenerateAfterData false modelId countResult st).pendingInputTokens = some 0 ∧
      (handleGenerateAfterData false modelId countResult st).pendingModelId = some modelId) := by
  constructor
  · intro tok text e hne herr
    simp [countTokens, hne, herr]
  · intro modelId cr e st hcr
    subst hcr
    simp [handleGenerateAfterData]

/-- Witness for `tokenizer_failure_fallback`: a four-character text estimates
to `ceil(4 / 3.35) = 2` when the tokenizer throws, and a failed input count
resolves to 0. -/
theorem tokenizer_failure_fallback_witness :
    countTokens tokFail (some "abcd") = 2 ∧
    (handleGenerateAfterData false "m" (Except.error ())
        PendingState.cleared).pendingInputTokens = some 0 := by
  constructor
  · rw [tokenizer_failure_fallback.1 tokFail "abcd" () (by decide) rfl,
      show ("abcd".length) = 4 from rfl]
    have hc : (⌈((4 : Nat) : ℚ) / (335 / 100)⌉ : ℤ) = 2 := by
      rw [Int.ceil_eq_iff]
      norm_num
    rw [hc]
    rfl
  · exact (tokenizer_failure_fallback.2 "m" _ () PendingState.cleared rfl).1

/-- C10: `countTokens` on a non-string value or the empty string resolves to 0
for every tokenizer whatsoever — the tokenizer is never consulted. -/
theorem countTokens_trivial_input (tok : String → Except Unit Nat) :
    countTokens tok none = 0 ∧ countTokens tok (some "") = 0 :=
  ⟨rfl, by simp [countTokens]⟩

theorem checkWarnings_mem (wt : Nat) (bl : ℚ) (mp : List (String × ModelPrice))
    (mko : String → String) (cmk : String) (tt : Nat) (byDay : List (String × DayBucket)) :
    (WarningKind.dailyThreshold ∈ checkWarnings wt bl mp mko cmk tt byDay ↔
      0 < wt ∧ wt ≤ tt) ∧
    (WarningKind.budgetAlert ∈ checkWarnings wt bl mp mko cmk tt byDay ↔
      0 < bl ∧ bl ≤ monthCost mp mko cmk byDay) ∧
    (WarningKind.budgetApproach ∈ checkWarnings wt bl mp mko cmk tt byDay ↔
      0 < bl ∧ ¬bl ≤ monthCost mp mko cmk byDay ∧
        bl * (8 / 10) ≤ monthCost mp mko cmk byDay) := by
  unfold checkWarnings
  by_cases h1 : 0 < wt ∧ wt ≤ tt <;>
    by_cases h2 : 0 < bl <;>
      by_cases h3 : bl ≤ monthCost mp mko cmk byDay <;>
        by_cases h4 : bl * (8 / 10) ≤ monthCost mp mko cmk byDay <;>
          simp [h1, h2, h3, h4]

/-- C8: after every recording the warning check runs as a non-blocking side
effect: the resulting store is exactly the `recordUsage` update whatever the
check yields; a zero `warningThreshold` disables the daily-token check and a
zero `budgetLimit` disables the monthly-budget checks; with a positive
`budgetLimit`, the month cost recomputed over the updated store fires the
distinct approach warning exactly when it is at least 80 percent of the limit
but below it, and the distinct alert exactly when it reaches or exceeds the
limit. -/
theorem recordUsage_warning_check (i o : Nat) (c m : Option String) (now : TimeKeys)
    (wt : Nat) (bl : ℚ) (mp : List (String × ModelPrice)) (mko : String → String)
    (u : UsageStore) :
    (recordUsageWithWarnings i o c m now wt bl mp mko u).1 = recordUsage i o c m now u ∧
    (wt = 0 →
      WarningKind.dailyThreshold ∉ (recordUsageWithWarnings i o c m now wt bl mp mko u).2) ∧
    (bl = 0 →
      WarningKind.budgetAlert ∉ (recordUsageWithWarnings i o c m now wt bl mp mko u).2 ∧
      WarningKind.budgetApproach ∉ (recordUsageWithWarnings i o c m now wt bl mp mko u).2) ∧
    (0 < bl →
      (WarningKind.budgetAlert ∈ (recordUsageWithWarnings i o c m now wt bl mp mko u).2 ↔
        bl ≤ monthCost mp mko now.month (recordUsage i o c m now u).byDay) ∧
      (WarningKind.budgetApproach ∈ (recordUsageWithWarnings i o c m now wt bl mp mko u).2 ↔
        bl * (8 / 10) ≤ monthCost mp mko now.month (recordUsage i o c m now u).byDay ∧
          monthCost mp mko now.month (recordUsage i o c m now u).byDay < bl)) := by
  have hmem := checkWarnings_mem wt bl mp mko now.month
    ((alookup now.day (recordUsage i o c m now u).byDay).getD .zero).total
    (recordUsage i o c m now u).byDay
  have h2eq : (recordUsageWithWarnings i o c m now wt bl mp mko u).2 =
      checkWarnings wt bl mp mko now.month
        ((alookup now.day (recordUsage i o c m now u).byDay).getD .zero).total
        (recordUsage i o c m now u).byDay := rfl
  refine ⟨rfl, ?_, ?_, ?_⟩
  · intro hwt
    subst hwt
    rw [h2eq, hmem.1]
    omega
  · intro hbl
    subst hbl
    rw [h2eq]
    constructor
    · rw [hmem.2.1]
      simp
    · rw [hmem.2.2]
      simp
  · intro hbl
    constructor
    · rw [h2eq, hmem.2.1]
      simp [hbl]
    · rw [h2eq, hmem.2.2]
      simp only [hbl, true_and]
      constructor
      · rintro ⟨hn, hge⟩
        exact ⟨hge, not_le.mp hn⟩
      · rintro ⟨hge, hlt⟩
        exact ⟨not_le.mpr hlt, hge⟩

/-- Witness for `recordUsage_warning_check`: with both limits zero, a concrete
recording yields the plain `recordUsage` store and fires no warnings. -/
theorem recordUsage_warning_check_witness :
    (recordUsageWithWarnings 100 50 none none tkScenario 0 0 [] (fun d => d)
        UsageStore.zero).1 =
      recordUsage 100 50 none none tkScenario UsageStore.zero ∧
    WarningKind.dailyThreshold ∉ (recordUsageWithWarnings 100 50 none none tkScenario 0 0 []
      (fun d => d) UsageStore.zero).2 ∧
    WarningKind.budgetAlert ∉ (recordUsageWithWarnings 100 50 none none tkScenario 0 0 []
      (fun d => d) UsageStore.zero).2 := by
  have h := recordUsage_warning_check 100 50 none none tkScenario 0 0 [] (fun d => d)
    UsageStore.zero
  exact ⟨h.1, h.2.1 rfl, (h.2.2.1 rfl).1⟩

end TokenUsage
